import Mathlib

/-!
Verification of the non-heap BSTR container library (`non_heap_bstr.h`).

The library is a set of C macros that build a length-prefixed string
container (`[4-byte length][character buffer]`) with automatic or static
storage duration, bit-compatible with a heap-allocated Windows `BSTR`.

The shallow embedding below translates the macro bodies into Lean
definitions:

* machine integers are `Nat` with explicit `% 2 ^ w` where the C code
  truncates (`UINT` stores and casts, `size_t` arithmetic);
* the container is a record holding the 32-bit length field and the byte
  contents of the buffer (the union's byte view, little-endian for the
  wide member);
* the target's pointer width is a `Bool` parameter `is64`
  (`true` ↔ `_WIN64`), so every theorem covers both the 32-bit and the
  64-bit configuration;
* the struct/union layout produced by the compiler is modelled by the
  standard C layout computation (offset alignment by member alignment)
  applied to the member lists written in the source.
-/

/-- `UINT` is 32 bits wide on both targets; stores into the length field
truncate to this modulus. -/
def UINT_MOD : Nat := 2 ^ 32

/-- Modulus of `size_t` arithmetic: `2 ^ 64` on a 64-bit target,
`2 ^ 32` on a 32-bit target. -/
def SIZE_T_MOD (is64 : Bool) : Nat := if is64 then 2 ^ 64 else 2 ^ 32

/-- `sizeof(__int3264)`: 8 on a 64-bit target, 4 on a 32-bit target. -/
def wordSize (is64 : Bool) : Nat := if is64 then 8 else 4

/-- Element count of the `WCHAR bstr[...]` union member of
`INTERNAL_BSTR_CONTAINER__`, translated from
`((bytecount_) / sizeof(WCHAR) + sizeof(__int3264) / sizeof(WCHAR)) &
~(sizeof(__int3264) / sizeof(WCHAR) - 1)`; the arithmetic is `size_t`
arithmetic and `~x` over `size_t` is `SIZE_T_MOD - 1 - x`, so the mask
`~(w/2 - 1)` is `SIZE_T_MOD - w/2`. -/
def bstrCount (is64 : Bool) (bytecount : Nat) : Nat :=
  ((bytecount / 2 + wordSize is64 / 2) % SIZE_T_MOD is64) &&&
    (SIZE_T_MOD is64 - wordSize is64 / 2)

/-- Element count of the `char bytestr[...]` union member of
`INTERNAL_BSTR_CONTAINER__`, translated from
`((bytecount_) + sizeof(__int3264)) & ~(sizeof(__int3264) - 1)` in
`size_t` arithmetic. -/
def bytestrCount (is64 : Bool) (bytecount : Nat) : Nat :=
  ((bytecount + wordSize is64) % SIZE_T_MOD is64) &&&
    (SIZE_T_MOD is64 - wordSize is64)

/-- Byte count handed to `INTERNAL_BSTR_CONTAINER__` by `BSTR_CONTAINER`:
`(bufcount_) * sizeof(WCHAR)` in `size_t` arithmetic. -/
def wideByteCount (is64 : Bool) (bufcount : Nat) : Nat :=
  (bufcount * 2) % SIZE_T_MOD is64

/-- The observable state of one BSTR container: the value of the
`UINT length` field of the prefix, and the bytes of the buffer (the byte
view `bytestr` of the union; the `WCHAR` view shares this memory,
little-endian). All writers keep `length < UINT_MOD`. -/
structure BstrContainer where
  length : Nat
  buf : List Nat
deriving Repr, DecidableEq

/-- `GET_BSTR_LEN`: `(UINT)(((UINT *)(void *)(bstr_))[-1] / sizeof(WCHAR))`.
The prefix read is divided by `sizeof(WCHAR)` in `size_t` arithmetic and
the result is cast back to `UINT`. -/
def GET_BSTR_LEN (c : BstrContainer) : Nat :=
  (c.length / 2) % UINT_MOD

/-- `SET_BSTR_LEN`: `((UINT *)(void *)(bstr_))[-1] =
(UINT)((length_) * sizeof(WCHAR))`; the product is truncated to `UINT`
by the cast and the 4-byte store. -/
def SET_BSTR_LEN (c : BstrContainer) (len : Nat) : BstrContainer :=
  { c with length := (len * 2) % UINT_MOD }

/-- `GET_BSTR_BYTE_LEN`: `(((UINT *)(void *)(bstr_))[-1])`, a plain read
of the 4-byte prefix. -/
def GET_BSTR_BYTE_LEN (c : BstrContainer) : Nat :=
  c.length

/-- `SET_BSTR_BYTE_LEN`: `((UINT *)(void *)(bstr_))[-1] = (UINT)(length_)`;
the argument is truncated to `UINT`. -/
def SET_BSTR_BYTE_LEN (c : BstrContainer) (len : Nat) : BstrContainer :=
  { c with length := len % UINT_MOD }

/-- A caller write of one byte through the handle (`((char *)b)[i] = v`);
the stored value occupies one byte. -/
def writeByte (c : BstrContainer) (i v : Nat) : BstrContainer :=
  { c with buf := c.buf.set i (v % 2 ^ 8) }

/-- Aggregate initialization: the initializer elements, then zero for
every remaining element of an array of `count` elements (C11 6.7.9p21). -/
def padTo (count : Nat) (init : List Nat) : List Nat :=
  init ++ List.replicate (count - init.length) 0

/-- Little-endian byte view of a list of `WCHAR` values: each 16-bit
element contributes its low byte then its high byte. -/
def wcharListBytes : List Nat → List Nat
  | [] => []
  | w :: ws => w % 2 ^ 16 % 2 ^ 8 :: w % 2 ^ 16 / 2 ^ 8 :: wcharListBytes ws

/-- Zero-initialized container of `sz` buffer bytes: what static storage
duration gives an uninitialized `BSTR_CONTAINER`/`BSTR_BYTE_CONTAINER`
(prefix `0`, all buffer bytes `0`). -/
def zeroBstrContainer (sz : Nat) : BstrContainer :=
  { length := 0, buf := List.replicate sz 0 }

/-- `BSTR_CONTAINER(v, bufcount_)` with static storage duration:
`INTERNAL_BSTR_CONTAINER__(v, bufcount_ * sizeof(WCHAR))`, zero-filled. -/
def BSTR_CONTAINER_static (is64 : Bool) (bufcount : Nat) : BstrContainer :=
  zeroBstrContainer (bytestrCount is64 (wideByteCount is64 bufcount))

/-- `BSTR_BYTE_CONTAINER(v, bufsize_)` with static storage duration:
`INTERNAL_BSTR_CONTAINER__(v, bufsize_)`, zero-filled. -/
def BSTR_BYTE_CONTAINER_static (is64 : Bool) (bufsize : Nat) : BstrContainer :=
  zeroBstrContainer (bytestrCount is64 bufsize)

/-- `INITIALIZED_BSTR_CONTAINER(v, bufcount_, init)`:
`.prefix = { .length = ((bufcount_) - 1) * sizeof(WCHAR) }` (assigned to
the `UINT` field, hence truncated) and `.bstr = init`, the `WCHAR` array
aggregate-initialized from `init` with trailing elements zero. `init` is
the list of `WCHAR` values of the initializer (a string literal
contributes its characters plus the terminating null). -/
def INITIALIZED_BSTR_CONTAINER (is64 : Bool) (bufcount : Nat)
    (init : List Nat) : BstrContainer :=
  { length := (bufcount - 1) * 2 % UINT_MOD
    buf := wcharListBytes
      (padTo (bstrCount is64 (wideByteCount is64 bufcount)) init) }

/-- `INITIALIZED_BSTR_BYTE_CONTAINER(v, bufsize_, init)`:
`.prefix = { .length = (bufsize_) - 1 }` (assigned to the `UINT` field)
and `.bytestr = init`, the `char` array aggregate-initialized from `init`
with trailing elements zero. -/
def INITIALIZED_BSTR_BYTE_CONTAINER (is64 : Bool) (bufsize : Nat)
    (init : List Nat) : BstrContainer :=
  { length := (bufsize - 1) % UINT_MOD
    buf := padTo (bytestrCount is64 bufsize) (init.map (· % 2 ^ 8)) }

/-- One caller operation on a container through its handle. -/
inductive BstrOp where
  | setLen (l : Nat)
  | setByteLen (l : Nat)
  | putByte (i v : Nat)
deriving Repr, DecidableEq

/-- Apply one operation. -/
def applyOp (c : BstrContainer) : BstrOp → BstrContainer
  | .setLen l => SET_BSTR_LEN c l
  | .setByteLen l => SET_BSTR_BYTE_LEN c l
  | .putByte i v => writeByte c i v

/-- Apply a sequence of operations. -/
def runOps (c : BstrContainer) (ops : List BstrOp) : BstrContainer :=
  ops.foldl applyOp c

/-- One execution of the `MAKE_BSTR(v, bufcount_)` expansion at a call
site. The expansion declares `static BSTR_CONTAINER(...)` — initialized
(to zero) only once, before the first execution — and its body performs
only `v = container.bstr`, an assignment to the handle variable. `none`
models the first execution (the container is freshly zero-initialized);
`some c` models a re-execution when the static container currently holds
state `c`: the body leaves the container untouched. -/
def MAKE_BSTR_exec (is64 : Bool) (bufcount : Nat) :
    Option BstrContainer → BstrContainer
  | none => BSTR_CONTAINER_static is64 bufcount
  | some c => c

/-- One execution of the `MAKE_INITIALIZED_BSTR(v, bufcount_, init)`
expansion; the static container's initializer runs only once. -/
def MAKE_INITIALIZED_BSTR_exec (is64 : Bool) (bufcount : Nat)
    (init : List Nat) : Option BstrContainer → BstrContainer
  | none => INITIALIZED_BSTR_CONTAINER is64 bufcount init
  | some c => c

/-- One execution of the `MAKE_BSTR_BYTE(v, bufsize_)` expansion. -/
def MAKE_BSTR_BYTE_exec (is64 : Bool) (bufsize : Nat) :
    Option BstrContainer → BstrContainer
  | none => BSTR_BYTE_CONTAINER_static is64 bufsize
  | some c => c

/-- One execution of the
`MAKE_INITIALIZED_BSTR_BYTE(v, bufsize_, init)` expansion. -/
def MAKE_INITIALIZED_BSTR_BYTE_exec (is64 : Bool) (bufsize : Nat)
    (init : List Nat) : Option BstrContainer → BstrContainer
  | none => INITIALIZED_BSTR_BYTE_CONTAINER is64 bufsize init
  | some c => c

/-- `round_up(n, w) = (n + w) & ~(w - 1)` as the specification writes it,
read over unbounded naturals (for `w` a power of two this clears the low
bits of `n + w`, i.e. subtracts `(n + w) % w`). Used only as the
spec-side comparison term of claim C4. -/
def specRoundUp (n w : Nat) : Nat :=
  (n + w) - (n + w) % w

/-- Round an offset up to a multiple of an alignment (the C layout rule
for placing a member of that alignment). -/
def alignUp (off a : Nat) : Nat :=
  (off + a - 1) / a * a

/-- Offset of `UINT length` inside the 64-bit inner
`struct { __int32 margin_dummy; UINT length; }`: `margin_dummy` (size 4,
alignment 4) sits at offset 0, `length` (size 4, alignment 4) follows. -/
def lenInnerOffset : Nat := alignUp (0 + 4) 4

/-- Size of that inner struct (padded to its alignment 4). -/
def lenInnerSize : Nat := alignUp (lenInnerOffset + 4) 4

/-- Size of `INTERNAL_BSTR_CONTAINER_LENGTH_PREFIX__`: on 64-bit, a union
of the inner struct and `__int64 alignment_dummy` (size 8, alignment 8);
on 32-bit, a struct holding only `UINT length`. -/
def lenPartSize (is64 : Bool) : Nat :=
  if is64 then alignUp (max lenInnerSize 8) (max 4 8) else alignUp (0 + 4) 4

/-- Alignment of `INTERNAL_BSTR_CONTAINER_LENGTH_PREFIX__`. -/
def lenPartAlign (is64 : Bool) : Nat :=
  if is64 then max 4 8 else 4

/-- Offset of the `length` field inside the length part. -/
def lengthOffset (is64 : Bool) : Nat :=
  if is64 then lenInnerOffset else 0

/-- Alignment of the buffer union (members `WCHAR[...]` of alignment 2
and `char[...]` of alignment 1). -/
def bufAlign : Nat := max 2 1

/-- Offset of the buffer union inside `INTERNAL_BSTR_CONTAINER__`: the
length part sits at offset 0, the union follows at the next multiple of
its alignment. -/
def bufOffset (is64 : Bool) : Nat :=
  alignUp (lenPartSize is64) bufAlign

/-- Alignment of the whole container struct: max of its members'
alignments. -/
def containerAlign (is64 : Bool) : Nat :=
  max (lenPartAlign is64) bufAlign

lemma two_pow_sub_two_pow (N k : Nat) (hk : k ≤ N) :
    2 ^ N - 2 ^ k = (2 ^ (N - k) - 1) * 2 ^ k := by
  have h : N - k + k = N := Nat.sub_add_cancel hk
  rw [Nat.sub_mul, one_mul, ← pow_add, h]

lemma land_two_pow_mask (N k a : Nat) (hk : k ≤ N) (ha : a < 2 ^ N) :
    a &&& (2 ^ N - 2 ^ k) = a / 2 ^ k * 2 ^ k := by
  have hmask : 2 ^ N - 2 ^ k = (2 ^ (N - k) - 1) <<< k := by
    rw [Nat.shiftLeft_eq, two_pow_sub_two_pow N k hk]
  have hrhs : a / 2 ^ k * 2 ^ k = (a >>> k) <<< k := by
    rw [Nat.shiftLeft_eq, Nat.shiftRight_eq_div_pow]
  rw [hmask, hrhs]
  apply Nat.eq_of_testBit_eq
  intro i
  rw [Nat.testBit_land, Nat.testBit_shiftLeft, Nat.testBit_shiftLeft,
    Nat.testBit_shiftRight, Nat.testBit_two_pow_sub_one]
  by_cases hki : k ≤ i
  · by_cases hiN : i < N
    · have hlt : i - k < N - k := by omega
      have hsum : k + (i - k) = i := by omega
      simp [hki, hlt, hsum]
    · have h1 : a.testBit i = false :=
        Nat.testBit_lt_two_pow
          (lt_of_lt_of_le ha (Nat.pow_le_pow_right (by norm_num) (by omega)))
      have h2 : a.testBit (k + (i - k)) = false := by
        rwa [show k + (i - k) = i from by omega]
      simp [hki, h1, h2]
  · simp [hki]

lemma bstrCount_eq (is64 : Bool) (bc : Nat)
    (h : bc / 2 + wordSize is64 / 2 < SIZE_T_MOD is64) :
    bstrCount is64 bc = (bc / wordSize is64 + 1) * (wordSize is64 / 2) := by
  cases is64 with
  | true =>
      have hw : wordSize true = 8 := rfl
      have hM : SIZE_T_MOD true = 2 ^ 64 := rfl
      rw [hw, hM] at h
      have h8 : bc / 2 + 8 / 2 < 2 ^ 64 := h
      have hm : (bc / 2 + 8 / 2) % 2 ^ 64 = bc / 2 + 4 := by
        rw [Nat.mod_eq_of_lt h8]
      have hmask := land_two_pow_mask 64 2 (bc / 2 + 4) (by norm_num)
        (by omega)
      show ((bc / 2 + 8 / 2) % 2 ^ 64) &&& (2 ^ 64 - 8 / 2) = (bc / 8 + 1) * (8 / 2)
      rw [hm, show (2:Nat) ^ 64 - 8 / 2 = 2 ^ 64 - 2 ^ 2 from by norm_num, hmask]
      have hdd : bc / 2 / 4 = bc / 8 := by
        rw [Nat.div_div_eq_div_mul]
      omega
  | false =>
      have hw : wordSize false = 4 := rfl
      have hM : SIZE_T_MOD false = 2 ^ 32 := rfl
      rw [hw, hM] at h
      have h4 : bc / 2 + 4 / 2 < 2 ^ 32 := h
      have hm : (bc / 2 + 4 / 2) % 2 ^ 32 = bc / 2 + 2 := by
        rw [Nat.mod_eq_of_lt h4]
      have hmask := land_two_pow_mask 32 1 (bc / 2 + 2) (by norm_num)
        (by omega)
      show ((bc / 2 + 4 / 2) % 2 ^ 32) &&& (2 ^ 32 - 4 / 2) = (bc / 4 + 1) * (4 / 2)
      rw [hm, show (2:Nat) ^ 32 - 4 / 2 = 2 ^ 32 - 2 ^ 1 from by norm_num, hmask]
      have hdd : bc / 2 / 2 = bc / 4 := by
        rw [Nat.div_div_eq_div_mul]
      omega

lemma bytestrCount_eq (is64 : Bool) (bc : Nat)
    (h : bc + wordSize is64 < SIZE_T_MOD is64) :
    bytestrCount is64 bc = (bc / wordSize is64 + 1) * wordSize is64 := by
  cases is64 with
  | true =>
      have h8 : bc + 8 < 2 ^ 64 := h
      have hmask := land_two_pow_mask 64 3 (bc + 8) (by norm_num) h8
      show ((bc + 8) % 2 ^ 64) &&& (2 ^ 64 - 8) = (bc / 8 + 1) * 8
      rw [Nat.mod_eq_of_lt h8,
        show (2:Nat) ^ 64 - 8 = 2 ^ 64 - 2 ^ 3 from by norm_num, hmask]
      omega
  | false =>
      have h4 : bc + 4 < 2 ^ 32 := h
      have hmask := land_two_pow_mask 32 2 (bc + 4) (by norm_num) h4
      show ((bc + 4) % 2 ^ 32) &&& (2 ^ 32 - 4) = (bc / 4 + 1) * 4
      rw [Nat.mod_eq_of_lt h4,
        show (2:Nat) ^ 32 - 4 = 2 ^ 32 - 2 ^ 2 from by norm_num, hmask]
      omega

lemma wideByteCount_eq (is64 : Bool) (bufcount : Nat)
    (h : bufcount * 2 < SIZE_T_MOD is64) :
    wideByteCount is64 bufcount = bufcount * 2 := by
  unfold wideByteCount
  exact Nat.mod_eq_of_lt h

lemma le_bytestrCount (is64 : Bool) (bc : Nat) (h : bc ≤ 2 ^ 31) :
    bc ≤ bytestrCount is64 bc := by
  have hM : bc + wordSize is64 < SIZE_T_MOD is64 := by
    cases is64 with
    | true =>
        show bc + 8 < 2 ^ 64
        have : (2:Nat) ^ 31 + 8 < 2 ^ 64 := by norm_num
        omega
    | false =>
        show bc + 4 < 2 ^ 32
        have : (2:Nat) ^ 31 + 4 < 2 ^ 32 := by norm_num
        omega
  rw [bytestrCount_eq is64 bc hM]
  cases is64 with
  | true => show bc ≤ (bc / 8 + 1) * 8; omega
  | false => show bc ≤ (bc / 4 + 1) * 4; omega

lemma le_bstrCount_wide (is64 : Bool) (n : Nat) (h : n ≤ 2 ^ 30) :
    n ≤ bstrCount is64 (wideByteCount is64 n) := by
  have hn2 : n * 2 < SIZE_T_MOD is64 := by
    cases is64 with
    | true =>
        show n * 2 < 2 ^ 64
        have : (2:Nat) ^ 30 * 2 < 2 ^ 64 := by norm_num
        omega
    | false =>
        show n * 2 < 2 ^ 32
        have : (2:Nat) ^ 30 * 2 < 2 ^ 32 := by norm_num
        omega
  rw [wideByteCount_eq is64 n hn2]
  have hh : n * 2 / 2 + wordSize is64 / 2 < SIZE_T_MOD is64 := by
    cases is64 with
    | true =>
        show n * 2 / 2 + 8 / 2 < 2 ^ 64
        have : (2:Nat) ^ 30 * 2 < 2 ^ 64 - 8 := by norm_num
        omega
    | false =>
        show n * 2 / 2 + 4 / 2 < 2 ^ 32
        have : (2:Nat) ^ 30 * 2 < 2 ^ 32 - 4 := by norm_num
        omega
  rw [bstrCount_eq is64 (n * 2) hh]
  cases is64 with
  | true => show n ≤ (n * 2 / 8 + 1) * (8 / 2); omega
  | false => show n ≤ (n * 2 / 4 + 1) * (4 / 2); omega

lemma wcharListBytes_length (l : List Nat) :
    (wcharListBytes l).length = 2 * l.length := by
  induction l with
  | nil => rfl
  | cons w ws ih => simp [wcharListBytes, ih]; omega

lemma wcharListBytes_append (a b : List Nat) :
    wcharListBytes (a ++ b) = wcharListBytes a ++ wcharListBytes b := by
  induction a with
  | nil => rfl
  | cons w ws ih => simp [wcharListBytes, ih]

lemma wcharListBytes_replicate_zero (k : Nat) :
    wcharListBytes (List.replicate k 0) = List.replicate (2 * k) 0 := by
  induction k with
  | zero => rfl
  | succ k ih =>
      rw [List.replicate_succ, wcharListBytes, ih]
      rw [show 2 * (k + 1) = (2 * k) + 1 + 1 from by omega]
      rfl

/-- The `WCHAR`/`char` values of the test content `"1234567890"` of
`main.c`, including the terminating null (`ARRAYSIZE` = 11). -/
def digitChars : List Nat := [49, 50, 51, 52, 53, 54, 55, 56, 57, 48, 0]

/-- C1: For every handle produced by a compatible constructor (whose
buffer, by the translation limit on C array sizes, holds at most `2 ^ 31`
bytes) and every length within the allocated buffer capacity —
`L` wide characters, i.e. `2 * L` bytes, in wide mode and `M` bytes in
byte mode — `SET_BSTR_LEN` followed by `GET_BSTR_LEN` returns `L`, and
`SET_BSTR_BYTE_LEN` followed by `GET_BSTR_BYTE_LEN` returns `M`. -/
theorem set_get_len_roundtrip (c : BstrContainer) (L M : Nat)
    (hcap : c.buf.length ≤ 2 ^ 31)
    (hL : 2 * L ≤ c.buf.length) (hM : M ≤ c.buf.length) :
    GET_BSTR_LEN (SET_BSTR_LEN c L) = L ∧
    GET_BSTR_BYTE_LEN (SET_BSTR_BYTE_LEN c M) = M := by
  have e32 : UINT_MOD = 4294967296 := by norm_num [UINT_MOD]
  have hcap' : c.buf.length ≤ 2147483648 := by
    have : (2:Nat) ^ 31 = 2147483648 := by norm_num
    omega
  constructor
  · show L * 2 % UINT_MOD / 2 % UINT_MOD = L
    rw [e32]
    omega
  · show M % UINT_MOD = M
    rw [e32]
    omega

/-- Witness for C1 at the byte container of capacity 11 initialized with
the digit string (allocated size 16 bytes), `L = 5`, `M = 7`. -/
theorem set_get_len_roundtrip_witness :
    GET_BSTR_LEN
      (SET_BSTR_LEN (INITIALIZED_BSTR_BYTE_CONTAINER true 11 digitChars) 5) = 5 ∧
    GET_BSTR_BYTE_LEN
      (SET_BSTR_BYTE_LEN (INITIALIZED_BSTR_BYTE_CONTAINER true 11 digitChars) 7) = 7 :=
  set_get_len_roundtrip (INITIALIZED_BSTR_BYTE_CONTAINER true 11 digitChars)
    5 7 (by decide) (by decide) (by decide)

/-- C2: Value-initializing a wide container of declared capacity `n`
(`1 ≤ n`, and `n ≤ 2 ^ 31` so that the prefix store does not truncate)
sets the stored length prefix to `(n - 1) * sizeof(WCHAR)` at
construction time, independent of the initializer, so `GET_BSTR_LEN`
returns `n - 1`; in particular for capacity 11 and content
`L"1234567890"` the wide get-length returns 10, and after
`SET_BSTR_LEN(handle, 9)` it returns 9. -/
theorem wide_value_init_length (is64 : Bool) (n : Nat) (init : List Nat)
    (h1 : 1 ≤ n) (h2 : n ≤ 2 ^ 31) :
    (INITIALIZED_BSTR_CONTAINER is64 n init).length = (n - 1) * 2 ∧
    GET_BSTR_LEN (INITIALIZED_BSTR_CONTAINER is64 n init) = n - 1 ∧
    GET_BSTR_LEN (INITIALIZED_BSTR_CONTAINER is64 11 digitChars) = 10 ∧
    GET_BSTR_LEN
      (SET_BSTR_LEN (INITIALIZED_BSTR_CONTAINER is64 11 digitChars) 9) = 9 := by
  have e32 : UINT_MOD = 4294967296 := by norm_num [UINT_MOD]
  have h2' : n ≤ 2147483648 := by
    have : (2:Nat) ^ 31 = 2147483648 := by norm_num
    omega
  refine ⟨?_, ?_, ?_, ?_⟩
  · show (n - 1) * 2 % UINT_MOD = (n - 1) * 2
    rw [e32]
    omega
  · show (n - 1) * 2 % UINT_MOD / 2 % UINT_MOD = n - 1
    rw [e32]
    omega
  · norm_num [GET_BSTR_LEN, INITIALIZED_BSTR_CONTAINER, UINT_MOD]
  · norm_num [GET_BSTR_LEN, SET_BSTR_LEN, INITIALIZED_BSTR_CONTAINER, UINT_MOD]

/-- Witness for C2 at `is64 = true`, `n = 11`, the digit-string
initializer. -/
theorem wide_value_init_length_witness :
    (INITIALIZED_BSTR_CONTAINER true 11 digitChars).length = (11 - 1) * 2 ∧
    GET_BSTR_LEN (INITIALIZED_BSTR_CONTAINER true 11 digitChars) = 11 - 1 ∧
    GET_BSTR_LEN (INITIALIZED_BSTR_CONTAINER true 11 digitChars) = 10 ∧
    GET_BSTR_LEN
      (SET_BSTR_LEN (INITIALIZED_BSTR_CONTAINER true 11 digitChars) 9) = 9 :=
  wide_value_init_length true 11 digitChars (by decide) (by decide)

/-- C3: Value-initializing a byte container of declared capacity `m`
(`1 ≤ m`, and `m ≤ 2 ^ 32` so that the prefix store does not truncate)
sets the stored length prefix to `m - 1` at construction time,
independent of the initializer, so `GET_BSTR_BYTE_LEN` returns `m - 1`;
in particular for capacity 11 and content `"1234567890"` the byte
get-length returns 10, and after `SET_BSTR_BYTE_LEN(handle, 5)` it
returns 5. -/
theorem byte_value_init_length (is64 : Bool) (m : Nat) (init : List Nat)
    (h1 : 1 ≤ m) (h2 : m ≤ 2 ^ 32) :
    (INITIALIZED_BSTR_BYTE_CONTAINER is64 m init).length = m - 1 ∧
    GET_BSTR_BYTE_LEN (INITIALIZED_BSTR_BYTE_CONTAINER is64 m init) = m - 1 ∧
    GET_BSTR_BYTE_LEN (INITIALIZED_BSTR_BYTE_CONTAINER is64 11 digitChars) = 10 ∧
    GET_BSTR_BYTE_LEN
      (SET_BSTR_BYTE_LEN
        (INITIALIZED_BSTR_BYTE_CONTAINER is64 11 digitChars) 5) = 5 := by
  have e32 : UINT_MOD = 4294967296 := by norm_num [UINT_MOD]
  have h2' : m ≤ 4294967296 := by
    have : (2:Nat) ^ 32 = 4294967296 := by norm_num
    omega
  have hlen : (m - 1) % UINT_MOD = m - 1 := by
    rw [e32]
    omega
  refine ⟨hlen, hlen, ?_, ?_⟩
  · norm_num [GET_BSTR_BYTE_LEN, INITIALIZED_BSTR_BYTE_CONTAINER, UINT_MOD]
  · norm_num [GET_BSTR_BYTE_LEN, SET_BSTR_BYTE_LEN,
      INITIALIZED_BSTR_BYTE_CONTAINER, UINT_MOD]

/-- Witness for C3 at `is64 = true`, `m = 11`, the digit-string
initializer. -/
theorem byte_value_init_length_witness :
    (INITIALIZED_BSTR_BYTE_CONTAINER true 11 digitChars).length = 11 - 1 ∧
    GET_BSTR_BYTE_LEN (INITIALIZED_BSTR_BYTE_CONTAINER true 11 digitChars) = 11 - 1 ∧
    GET_BSTR_BYTE_LEN (INITIALIZED_BSTR_BYTE_CONTAINER true 11 digitChars) = 10 ∧
    GET_BSTR_BYTE_LEN
      (SET_BSTR_BYTE_LEN
        (INITIALIZED_BSTR_BYTE_CONTAINER true 11 digitChars) 5) = 5 :=
  byte_value_init_length true 11 digitChars (by decide) (by decide)

/-- C4: For every requested byte count `bc` (small enough that the
`size_t` size computation does not wrap; `bc + 8 < 2 ^ 32` covers both
targets), the wide-character union member (`bstrCount` elements of 2
bytes each) and the byte union member (`bytestrCount` elements) both
occupy exactly `round_up(bc, wordSize)` bytes, with
`round_up(n, w) = (n + w) & ~(w - 1)` as `specRoundUp` — in particular
the two arrays are the same size in bytes even when `bc` is odd, despite
the truncating division by `sizeof(WCHAR)` in the wide array's size. -/
theorem union_member_sizes (is64 : Bool) (bc : Nat) (hbc : bc + 8 < 2 ^ 32) :
    2 * bstrCount is64 bc = specRoundUp bc (wordSize is64) ∧
    bytestrCount is64 bc = specRoundUp bc (wordSize is64) := by
  have e31 : (2:Nat) ^ 32 = 4294967296 := by norm_num
  have h1 : bc / 2 + wordSize is64 / 2 < SIZE_T_MOD is64 := by
    cases is64 with
    | true =>
        show bc / 2 + 8 / 2 < 2 ^ 64
        have : (2:Nat) ^ 64 = 18446744073709551616 := by norm_num
        omega
    | false =>
        show bc / 2 + 4 / 2 < 2 ^ 32
        omega
  have h2 : bc + wordSize is64 < SIZE_T_MOD is64 := by
    cases is64 with
    | true =>
        show bc + 8 < 2 ^ 64
        have : (2:Nat) ^ 64 = 18446744073709551616 := by norm_num
        omega
    | false =>
        show bc + 4 < 2 ^ 32
        omega
  rw [bstrCount_eq is64 bc h1, bytestrCount_eq is64 bc h2]
  unfold specRoundUp
  cases is64 with
  | true =>
      show 2 * ((bc / 8 + 1) * (8 / 2)) = (bc + 8) - (bc + 8) % 8 ∧
        (bc / 8 + 1) * 8 = (bc + 8) - (bc + 8) % 8
      constructor <;> omega
  | false =>
      show 2 * ((bc / 4 + 1) * (4 / 2)) = (bc + 4) - (bc + 4) % 4 ∧
        (bc / 4 + 1) * 4 = (bc + 4) - (bc + 4) % 4
      constructor <;> omega

/-- Witness for C4 at `is64 = true`, odd byte count 11. -/
theorem union_member_sizes_witness :
    2 * bstrCount true 11 = specRoundUp 11 (wordSize true) ∧
    bytestrCount true 11 = specRoundUp 11 (wordSize true) :=
  union_member_sizes true 11 (by decide)

/-- C5: For every requested capacity and every word-aligned container
base address, the buffer's start address is aligned to the native word
size, the 32-bit length field occupies the 4 bytes immediately preceding
the buffer (`lengthOffset + 4 = bufOffset`), the container's alignment
equals the native word size (so the compiler places every instance at a
word-aligned base, making the buffer word-aligned), and the allocated
buffer capacity is at least the requested capacity — `bc` requested
bytes in byte mode, `n` requested wide characters in wide mode (bounded
by the C translation limit on object size). -/
theorem layout_and_capacity (is64 : Bool) (base bc n : Nat)
    (hbase : base % containerAlign is64 = 0)
    (hbc : bc ≤ 2 ^ 31) (hn : n ≤ 2 ^ 30) :
    (base + bufOffset is64) % wordSize is64 = 0 ∧
    lengthOffset is64 + 4 = bufOffset is64 ∧
    containerAlign is64 = wordSize is64 ∧
    bc ≤ bytestrCount is64 bc ∧
    n ≤ bstrCount is64 (wideByteCount is64 n) := by
  refine ⟨?_, ?_, ?_, le_bytestrCount is64 bc hbc, le_bstrCount_wide is64 n hn⟩
  · cases is64 with
    | true =>
        have hb : base % 8 = 0 := hbase
        show (base + 8) % 8 = 0
        omega
    | false =>
        have hb : base % 4 = 0 := hbase
        show (base + 4) % 4 = 0
        omega
  · cases is64 <;> rfl
  · cases is64 <;> rfl

/-- Witness for C5 at `is64 = true`, base address 64, byte capacity 11,
wide capacity 11. -/
theorem layout_and_capacity_witness :
    (64 + bufOffset true) % wordSize true = 0 ∧
    lengthOffset true + 4 = bufOffset true ∧
    containerAlign true = wordSize true ∧
    11 ≤ bytestrCount true 11 ∧
    11 ≤ bstrCount true (wideByteCount true 11) :=
  layout_and_capacity true 64 11 11 (by decide) (by decide) (by decide)

/-- C6: Re-executing a scoped declaration wrapper (`MAKE_BSTR`,
`MAKE_INITIALIZED_BSTR`, `MAKE_BSTR_BYTE`,
`MAKE_INITIALIZED_BSTR_BYTE`) at the same call site reuses the static
backing container without modifying its content or length prefix: the
expansion body only reassigns the handle variable, so for any container
state `c` a re-execution (`some c`) returns `c` unchanged; in
particular, after a first execution followed by any sequence of caller
operations `ops`, a second invocation observes exactly the content and
length those operations left behind. -/
theorem scoped_wrapper_reexec (is64 : Bool) (bufcount bufsize : Nat)
    (initW initB : List Nat) (c : BstrContainer) (ops : List BstrOp) :
    MAKE_BSTR_exec is64 bufcount (some c) = c ∧
    MAKE_INITIALIZED_BSTR_exec is64 bufcount initW (some c) = c ∧
    MAKE_BSTR_BYTE_exec is64 bufsize (some c) = c ∧
    MAKE_INITIALIZED_BSTR_BYTE_exec is64 bufsize initB (some c) = c ∧
    MAKE_BSTR_exec is64 bufcount
      (some (runOps (MAKE_BSTR_exec is64 bufcount none) ops)) =
      runOps (MAKE_BSTR_exec is64 bufcount none) ops ∧
    MAKE_INITIALIZED_BSTR_exec is64 bufcount initW
      (some (runOps (MAKE_INITIALIZED_BSTR_exec is64 bufcount initW none) ops)) =
      runOps (MAKE_INITIALIZED_BSTR_exec is64 bufcount initW none) ops ∧
    MAKE_BSTR_BYTE_exec is64 bufsize
      (some (runOps (MAKE_BSTR_BYTE_exec is64 bufsize none) ops)) =
      runOps (MAKE_BSTR_BYTE_exec is64 bufsize none) ops ∧
    MAKE_INITIALIZED_BSTR_BYTE_exec is64 bufsize initB
      (some (runOps (MAKE_INITIALIZED_BSTR_BYTE_exec is64 bufsize initB none) ops)) =
      runOps (MAKE_INITIALIZED_BSTR_BYTE_exec is64 bufsize initB none) ops :=
  ⟨rfl, rfl, rfl, rfl, rfl, rfl, rfl, rfl⟩

/-- C8: A static-storage uninitialized container — as produced at the
first execution of `MAKE_BSTR` or `MAKE_BSTR_BYTE`, which always declare
the container `static` — has length prefix 0 and an all-zero buffer
before any caller write, so both `GET_BSTR_LEN` and `GET_BSTR_BYTE_LEN`
on the fresh handle return 0. -/
theorem static_uninit_zero (is64 : Bool) (n m : Nat) :
    GET_BSTR_LEN (MAKE_BSTR_exec is64 n none) = 0 ∧
    GET_BSTR_BYTE_LEN (MAKE_BSTR_exec is64 n none) = 0 ∧
    (MAKE_BSTR_exec is64 n none).length = 0 ∧
    (MAKE_BSTR_exec is64 n none).buf =
      List.replicate (MAKE_BSTR_exec is64 n none).buf.length 0 ∧
    GET_BSTR_LEN (MAKE_BSTR_BYTE_exec is64 m none) = 0 ∧
    GET_BSTR_BYTE_LEN (MAKE_BSTR_BYTE_exec is64 m none) = 0 ∧
    (MAKE_BSTR_BYTE_exec is64 m none).length = 0 ∧
    (MAKE_BSTR_BYTE_exec is64 m none).buf =
      List.replicate (MAKE_BSTR_BYTE_exec is64 m none).buf.length 0 := by
  refine ⟨?_, rfl, rfl, ?_, ?_, rfl, rfl, ?_⟩
  · norm_num [GET_BSTR_LEN, MAKE_BSTR_exec, BSTR_CONTAINER_static,
      zeroBstrContainer]
  · simp [MAKE_BSTR_exec, BSTR_CONTAINER_static, zeroBstrContainer]
  · norm_num [GET_BSTR_LEN, MAKE_BSTR_BYTE_exec, BSTR_BYTE_CONTAINER_static,
      zeroBstrContainer]
  · simp [MAKE_BSTR_BYTE_exec, BSTR_BYTE_CONTAINER_static, zeroBstrContainer]

/-- C10: `SET_BSTR_LEN` and `SET_BSTR_BYTE_LEN` write only the 4-byte
length prefix: for every container and every length argument, every byte
of the buffer is unchanged by a set-length operation (and the container
has no other field). -/
theorem set_len_frame (c : BstrContainer) (l m : Nat) :
    (SET_BSTR_LEN c l).buf = c.buf ∧ (SET_BSTR_BYTE_LEN c m).buf = c.buf :=
  ⟨rfl, rfl⟩

/-- C9: The wide-mode and byte-mode accessors are coherent on a single
handle: after `SET_BSTR_BYTE_LEN(handle, n)` (with `n` a `UINT` value,
`n < 2 ^ 32`), `GET_BSTR_LEN` returns `n / sizeof(WCHAR)` (truncating
division), and after `SET_BSTR_LEN(handle, L)`, `GET_BSTR_BYTE_LEN`
returns `L * sizeof(WCHAR)` truncated to 32 bits. -/
theorem length_accessor_coherence (c : BstrContainer) (n L : Nat)
    (hn : n < 2 ^ 32) :
    GET_BSTR_LEN (SET_BSTR_BYTE_LEN c n) = n / 2 ∧
    GET_BSTR_BYTE_LEN (SET_BSTR_LEN c L) = L * 2 % UINT_MOD := by
  have e32 : UINT_MOD = 4294967296 := by norm_num [UINT_MOD]
  have hn' : n < 4294967296 := by
    have : (2:Nat) ^ 32 = 4294967296 := by norm_num
    omega
  constructor
  · show n % UINT_MOD / 2 % UINT_MOD = n / 2
    rw [e32]
    omega
  · rfl

/-- Witness for C9 at the zero container, `n = 7`, `L = 3`. -/
theorem length_accessor_coherence_witness :
    GET_BSTR_LEN (SET_BSTR_BYTE_LEN (zeroBstrContainer 8) 7) = 7 / 2 ∧
    GET_BSTR_BYTE_LEN (SET_BSTR_LEN (zeroBstrContainer 8) 3) = 3 * 2 % UINT_MOD :=
  length_accessor_coherence (zeroBstrContainer 8) 7 3 (by decide)

/-- C7: For every value-initialized container whose initializer is
shorter than the declared capacity (capacity bounded by the translation
limits as in C2/C3), the buffer bytes past the initializer are zero —
the tail of the byte view from offset `2 * initW.length` (wide) resp.
`initB.length` (byte) is all zeros — yet the stored length prefix still
equals the declared capacity minus one (times the character size in wide
mode): the construction never derives the length from the initializer's
actual length. -/
theorem partial_init_zero_tail (is64 : Bool) (n m : Nat)
    (initW initB : List Nat)
    (hW : initW.length < n) (hn2 : n ≤ 2 ^ 30)
    (hB : initB.length < m) (hm2 : m ≤ 2 ^ 31) :
    (INITIALIZED_BSTR_CONTAINER is64 n initW).buf.drop (2 * initW.length) =
      List.replicate
        ((INITIALIZED_BSTR_CONTAINER is64 n initW).buf.length -
          2 * initW.length) 0 ∧
    (INITIALIZED_BSTR_CONTAINER is64 n initW).length = (n - 1) * 2 ∧
    (INITIALIZED_BSTR_BYTE_CONTAINER is64 m initB).buf.drop initB.length =
      List.replicate
        ((INITIALIZED_BSTR_BYTE_CONTAINER is64 m initB).buf.length -
          initB.length) 0 ∧
    (INITIALIZED_BSTR_BYTE_CONTAINER is64 m initB).length = m - 1 := by
  have e32 : UINT_MOD = 4294967296 := by norm_num [UINT_MOD]
  have hcntW : n ≤ bstrCount is64 (wideByteCount is64 n) :=
    le_bstrCount_wide is64 n hn2
  have hlenW : initW.length ≤ bstrCount is64 (wideByteCount is64 n) := by
    omega
  have hcntB : m ≤ bytestrCount is64 m := le_bytestrCount is64 m hm2
  have hlenB : initB.length ≤ bytestrCount is64 m := by omega
  have hbufW : (INITIALIZED_BSTR_CONTAINER is64 n initW).buf =
      wcharListBytes initW ++
        List.replicate
          (2 * (bstrCount is64 (wideByteCount is64 n) - initW.length)) 0 := by
    simp only [INITIALIZED_BSTR_CONTAINER, padTo]
    rw [wcharListBytes_append, wcharListBytes_replicate_zero]
  have hbufB : (INITIALIZED_BSTR_BYTE_CONTAINER is64 m initB).buf =
      initB.map (· % 2 ^ 8) ++
        List.replicate (bytestrCount is64 m - initB.length) 0 := by
    simp only [INITIALIZED_BSTR_BYTE_CONTAINER, padTo, List.length_map]
  refine ⟨?_, ?_, ?_, ?_⟩
  · rw [hbufW,
      show 2 * initW.length = (wcharListBytes initW).length from
        (wcharListBytes_length initW).symm,
      List.drop_left]
    congr 1
    simp only [List.length_append, List.length_replicate,
      wcharListBytes_length]
    omega
  · show (n - 1) * 2 % UINT_MOD = (n - 1) * 2
    rw [e32]
    have : (2:Nat) ^ 30 = 1073741824 := by norm_num
    omega
  · rw [hbufB,
      show initB.length = (initB.map (· % 2 ^ 8)).length from by simp,
      List.drop_left]
    congr 1
    simp only [List.length_append, List.length_replicate, List.length_map]
    omega
  · show (m - 1) % UINT_MOD = m - 1
    rw [e32]
    have : (2:Nat) ^ 31 = 2147483648 := by norm_num
    omega

/-- Witness for C7 at `is64 = true`, wide capacity 4 with one-element
initializer, byte capacity 5 with two-element initializer. -/
theorem partial_init_zero_tail_witness :
    (INITIALIZED_BSTR_CONTAINER true 4 [65]).buf.drop (2 * [65].length) =
      List.replicate
        ((INITIALIZED_BSTR_CONTAINER true 4 [65]).buf.length -
          2 * [65].length) 0 ∧
    (INITIALIZED_BSTR_CONTAINER true 4 [65]).length = (4 - 1) * 2 ∧
    (INITIALIZED_BSTR_BYTE_CONTAINER true 5 [66, 67]).buf.drop [66, 67].length =
      List.replicate
        ((INITIALIZED_BSTR_BYTE_CONTAINER true 5 [66, 67]).buf.length -
          [66, 67].length) 0 ∧
    (INITIALIZED_BSTR_BYTE_CONTAINER true 5 [66, 67]).length = 5 - 1 :=
  partial_init_zero_tail true 4 5 [65] [66, 67]
    (by decide) (by decide) (by decide) (by decide)
